import Mathlib

/-!
Shallow embedding of the validator/serializer core of the `pydantic-core`
corpus (argument binding validation, lax/strict numeric coercion, the
serialize-time recursion guard, and the typed-dict fields-serializer
builder), together with proofs of the specification's claims about it.

Python runtime values are modelled by the inductive `PyValue`; float and
decimal magnitudes are modelled as rationals (the claims depend only on
integrality and on branch structure, never on IEEE bit-level behaviour).
-/

namespace PydanticCore

/-- Strength of a successful coercion (`Exactness` in `src/validators`):
`exact > strict > lax`. -/
inductive Exactness where
  | lax
  | strict
  | exact
deriving DecidableEq, Repr

/-- Modelled Python runtime value.  Distinct constructors separate exact
instances from subclass instances because `input_python.rs` branches on
`is_exact_instance_of` vs `is_instance_of`.  `pyEnum` carries the `.value`
payload of an enum-like object; `pyArgsKwargs` models the `ArgsKwargs`
wrapper of `src/argument_markers.rs` (whose constructor normalises an empty
kwargs dict to `None`). -/
inductive PyValue where
  | pyNone
  | pyBool (b : Bool)
  | pyInt (n : ℤ)
  | pyIntSub (n : ℤ)
  | pyFloat (f : ℚ)
  | pyFloatSub (f : ℚ)
  | pyStr (s : String)
  | pyBytes (bs : List ℕ)
  | pyDecimal (d : ℚ)
  | pyDecimalSub (d : ℚ)
  | pyEnum (value : PyValue)
  | pyTuple (items : List PyValue)
  | pyList (items : List PyValue)
  | pyDict (items : List (PyValue × PyValue))
  | pyArgsKwargs (args : List PyValue) (kwargs : Option (List (PyValue × PyValue)))

/-- Error kinds used by the embedded fragment (`ErrorKind` /
`ErrorTypeDefaults` in `src/errors`). -/
inductive ErrorType where
  | argumentsType
  | multipleArgumentValues
  | missingKeywordArgument
  | missingPositionalArgument
  | unexpectedPositionalArgument
  | unexpectedKeywordArgument
  | invalidKey
  | intType
  | intParsing
  | intFromFloat
  | floatType
  | floatParsing
  | stringType
  | stringUnicode
  | boolType
  | decimalType
  | isInstanceOfDecimal
deriving DecidableEq, Repr

/-- One segment of an error location path (`LocItem`): a string key or an
integer index. -/
inductive LocItem where
  | key (s : String)
  | index (i : ℤ)
deriving DecidableEq, Repr

/-- One line error (`ValLineError`): kind, location path (outermost
segment first), and the offending input snapshot. -/
structure ValLineError where
  errorType : ErrorType
  location : List LocItem
  input : PyValue

/-- Runtime validation failure (`ValError`): either an ordered list of line
errors, or an internal (host) error that is propagated unchanged. -/
inductive ValError where
  | lineErrors (errors : List ValLineError)
  | internal

/-- Model of `ValLineError::new_with_loc`. -/
def ValLineError.new_with_loc (t : ErrorType) (input : PyValue) (loc : LocItem) : ValLineError :=
  ⟨t, [loc], input⟩

/-- Model of `ValLineError::with_outer_location`: prepend an outer path segment. -/
def ValLineError.with_outer_location (e : ValLineError) (loc : LocItem) : ValLineError :=
  { e with location := loc :: e.location }

/-- Model of `ValLineError::with_kind`: replace the error kind. -/
def ValLineError.with_kind (e : ValLineError) (t : ErrorType) : ValLineError :=
  { e with errorType := t }

/-- Model of `ValError::new`: a single line error with an empty location. -/
def ValError.new (t : ErrorType) (input : PyValue) : ValError :=
  .lineErrors [⟨t, [], input⟩]

/-- Model of `ValResult<T>`. -/
abbrev ValResult (α : Type) := Except ValError α

/-- Model of `ValidationMatch<T>`: a coerced value together with its exactness. -/
structure ValidationMatch (α : Type) where
  value : α
  exactness : Exactness

/-- Model of `ValidationMatch::exact`. -/
def ValidationMatch.exact {α : Type} (v : α) : ValidationMatch α := ⟨v, .exact⟩

/-- Model of `ValidationMatch::strict`. -/
def ValidationMatch.strict {α : Type} (v : α) : ValidationMatch α := ⟨v, .strict⟩

/-- Model of `ValidationMatch::lax`. -/
def ValidationMatch.lax {α : Type} (v : α) : ValidationMatch α := ⟨v, .lax⟩

/-- Model of `ValidationMatch::new`. -/
def ValidationMatch.new {α : Type} (v : α) (e : Exactness) : ValidationMatch α := ⟨v, e⟩

/-- Model of `EitherInt`: an integer result, either a wrapped Python object or a
concrete integer. -/
inductive EitherInt where
  | py (v : PyValue)
  | i (n : ℤ)

/-- Model of `EitherFloat`. -/
inductive EitherFloat where
  | py (v : PyValue)
  | f64 (f : ℚ)

/-- Model of `is_exact_instance_of::<PyInt>`: the value is exactly of type `int`. -/
def PyValue.is_exact_instance_of_int : PyValue → Bool
  | .pyInt _ => true
  | _ => false

/-- Model of `is_instance_of::<PyInt>`: `int`, an `int` subclass, or `bool` (which is
a subclass of `int` in Python). -/
def PyValue.is_instance_of_int : PyValue → Bool
  | .pyInt _ => true
  | .pyIntSub _ => true
  | .pyBool _ => true
  | _ => false

/-- Model of `is_instance_of::<PyBool>`. -/
def PyValue.is_instance_of_bool : PyValue → Bool
  | .pyBool _ => true
  | _ => false

/-- Model of `is_exact_instance_of::<PyFloat>`. -/
def PyValue.is_exact_instance_of_float : PyValue → Bool
  | .pyFloat _ => true
  | _ => false

/-- Modelled from the spec: UTF-8 decoding of a byte string (`from_utf8`
from the Rust standard library, outside the corpus) restricted to the ASCII
subset; non-ASCII byte strings decode to `none` (the "invalid unicode"
case). -/
def bytesToStr (bs : List ℕ) : Option String :=
  if bs.all (fun b => b < 128) then some (String.mk (bs.map Char.ofNat)) else none

/-- Model of `maybe_as_string` (`input_python.rs`): a string extracts directly; a
byte string is UTF-8 decoded, a decode failure is an error of the supplied
kind; any other value yields `none`. -/
def maybe_as_string (v : PyValue) (unicode_error : ErrorType) : ValResult (Option String) :=
  match v with
  | .pyStr s => .ok (some s)
  | .pyBytes bs =>
    match bytesToStr bs with
    | some s => .ok (some s)
    | none => .error (ValError.new unicode_error v)
  | _ => .ok none

/-- Model of `maybe_as_enum` (`input_python.rs`): for an enum-like value return its
`.value` payload. -/
def maybe_as_enum : PyValue → Option PyValue
  | .pyEnum val => some val
  | _ => none

/-- Model of `self.extract::<f64>()` (pyo3, outside the corpus), modelled from the
spec: every value supporting Python `__float__` — bool, int (and
subclasses), float (and subclasses), decimal — extracts to its numeric
value; all other modelled values fail. -/
def extract_f64 : PyValue → Option ℚ
  | .pyBool b => some (if b then 1 else 0)
  | .pyInt n => some (n : ℚ)
  | .pyIntSub n => some (n : ℚ)
  | .pyFloat f => some f
  | .pyFloatSub f => some f
  | .pyDecimal d => some d
  | .pyDecimalSub d => some d
  | _ => none

/-- Modelled from the spec: `str_as_int` (in `input/shared.rs`, outside the
corpus) parses an integer literal from a trimmed numeric string; any other
string is a terminal `int_parsing` failure. -/
def str_as_int (input : PyValue) (s : String) : ValResult EitherInt :=
  match s.trim.toInt? with
  | some n => .ok (.i n)
  | none => .error (ValError.new .intParsing input)

/-- Modelled from the spec: `float_as_int` (in `input/shared.rs`, outside
the corpus) accepts exactly the integral floats; a non-integral float is a
terminal value-range failure. -/
def float_as_int (input : PyValue) (f : ℚ) : ValResult EitherInt :=
  if f.den = 1 then .ok (.i f.num) else .error (ValError.new .intFromFloat input)

/-- Modelled from the spec: `decimal_as_int` (in `input/shared.rs`, outside
the corpus) accepts exactly the integral decimals. -/
def decimal_as_int (input : PyValue) (d : ℚ) : ValResult EitherInt :=
  if d.den = 1 then .ok (.i d.num) else .error (ValError.new .intFromFloat input)

/-- Modelled from the spec: an unsigned numeric-string body, with an
optional fractional part, as a rational. -/
def parseUnsignedDecimal (s : String) : Option ℚ :=
  match s.splitOn "." with
  | [w] => (w.toNat?).map (fun n => (n : ℚ))
  | [w, f] =>
    match w.toNat?, f.toNat? with
    | some wn, some fn => some ((wn : ℚ) + (fn : ℚ) / ((10 : ℚ) ^ f.length))
    | _, _ => none
  | _ => none

/-- Modelled from the spec: the lax string→number grammar (documented as an
external collaborator contract): optional sign, digits, optional fractional
part. -/
def parseDecimalString (s : String) : Option ℚ :=
  let t := s.trim
  if t.startsWith "-" then (parseUnsignedDecimal (t.drop 1)).map Neg.neg
  else if t.startsWith "+" then parseUnsignedDecimal (t.drop 1)
  else parseUnsignedDecimal t

/-- Modelled from the spec: `str_as_float` (in `input/shared.rs`, outside
the corpus). -/
def str_as_float (input : PyValue) (s : String) : ValResult EitherFloat :=
  match parseDecimalString s with
  | some q => .ok (.f64 q)
  | none => .error (ValError.new .floatParsing input)

/-- Model of `EitherInt::upcast`: force a bool / int-subclass value to a plain
integer. -/
def EitherInt.upcast (v : PyValue) : ValResult EitherInt :=
  match v with
  | .pyBool b => .ok (.i (if b then 1 else 0))
  | .pyInt n => .ok (.i n)
  | .pyIntSub n => .ok (.i n)
  | _ => .error .internal

/-- Model of `strict_decimal` (`input_python.rs`): an exact decimal is returned
directly; a decimal subclass is upcast (via `create_decimal`, modelled as
succeeding); anything else is a structural `is_instance_of` failure. -/
def strict_decimal (v : PyValue) : ValResult ℚ :=
  match v with
  | .pyDecimal d => .ok d
  | .pyDecimalSub d => .ok d
  | _ => .error (ValError.new .isInstanceOfDecimal v)

/-- Model of `validate_int` (`input_python.rs` lines 292–330).  Exact int → `Exact`;
int subclass → `Strict` (`Lax` for bool, rejected in strict mode); then, in
lax mode only: numeric string, exact float, decimal, float-extractable
value, enum-like value-unwrap; otherwise the `int_type` wrong-type
error. -/
def validate_int (v : PyValue) (strict : Bool) : ValResult (ValidationMatch EitherInt) :=
  if v.is_exact_instance_of_int then
    .ok (ValidationMatch.exact (.py v))
  else if v.is_instance_of_int then
    -- bools are a subclass of int, so check for bool type in this specific case
    if v.is_instance_of_bool then
      if strict then .error (ValError.new .intType v)
      else (EitherInt.upcast v).map (fun ei => ValidationMatch.new ei .lax)
    else
      (EitherInt.upcast v).map (fun ei => ValidationMatch.new ei .strict)
  else if strict then
    .error (ValError.new .intType v)
  else
    match maybe_as_string v .intParsing with
    | .error e => .error e
    | .ok (some s) => (str_as_int v s).map (fun ei => ValidationMatch.new ei .lax)
    | .ok none =>
      if v.is_exact_instance_of_float then
        match extract_f64 v with
        | some f => (float_as_int v f).map (fun ei => ValidationMatch.new ei .lax)
        | none => .error .internal
      else
        match strict_decimal v with
        | .ok dec => (decimal_as_int v dec).map (fun ei => ValidationMatch.new ei .lax)
        | .error _ =>
          match extract_f64 v with
          | some f => (float_as_int v f).map (fun ei => ValidationMatch.new ei .lax)
          | none =>
            match maybe_as_enum v with
            | some enum_val => .ok (ValidationMatch.new (.py enum_val) .lax)
            | none => .error (ValError.new .intType v)

/-- Model of `validate_float` (`input_python.rs` lines 332–357).  Exact float →
`Exact`; in lax mode a numeric string is tried next; then any
float-extractable value → `Strict`, except bool which is rejected in strict
mode and `Lax` otherwise; otherwise the `float_type` wrong-type error. -/
def validate_float (v : PyValue) (strict : Bool) : ValResult (ValidationMatch EitherFloat) :=
  if v.is_exact_instance_of_float then
    .ok (ValidationMatch.exact (.py v))
  else
    match (if strict then Except.ok none else maybe_as_string v .floatParsing) with
    | .error e => .error e
    | .ok (some s) => (str_as_float v s).map (fun ef => ValidationMatch.new ef .lax)
    | .ok none =>
      match extract_f64 v with
      | some f =>
        if v.is_instance_of_bool then
          if strict then .error (ValError.new .floatType v)
          else .ok (ValidationMatch.new (.f64 f) .lax)
        else .ok (ValidationMatch.new (.f64 f) .strict)
      | none => .error (ValError.new .floatType v)

/-! ## Serialize-call recursion guard (`src/serializers/extra.rs` 196–235) -/

/-- Model of `RecursionInfo`: the set of visited value identities (an `AHashSet`,
modelled as a duplicate-free list whose order is unobservable) plus the
depth counter (a `u16` in the source; its value never exceeds 201 under the
guard's own operations, so `ℕ` is a faithful model). -/
structure RecursionInfo where
  ids : List ℕ
  depth : ℕ
deriving DecidableEq, Repr

/-- Model of `SerRecursionGuard::MAX_DEPTH`. -/
def MAX_DEPTH : ℕ := 200

/-- Model of `SerRecursionGuard::add`: insert the identity into the visited set
first (a no-op when already present, in which case the "id repeated" error
is returned and the state is unchanged); then, if the depth counter exceeds
`MAX_DEPTH`, return the "depth exceeded" error — note the freshly inserted
identity stays in the set on this path; otherwise increment the depth.  The
mutated state is returned alongside the result, mirroring the interior
mutability of the Rust `RefCell`. -/
def SerRecursionGuard.add (g : RecursionInfo) (id : ℕ) : RecursionInfo × Except String ℕ :=
  if id ∈ g.ids then
    (g, .error "Circular reference detected (id repeated)")
  else
    let g1 : RecursionInfo := { g with ids := id :: g.ids }
    if g.depth > MAX_DEPTH then
      (g1, .error "Circular reference detected (depth exceeded)")
    else
      ({ g1 with depth := g.depth + 1 }, .ok id)

/-- Model of `SerRecursionGuard::pop`: decrement the depth and remove the
identity. -/
def SerRecursionGuard.pop (g : RecursionInfo) (id : ℕ) : RecursionInfo :=
  { ids := g.ids.erase id, depth := g.depth - 1 }

/-- The guard states reachable through the guard's own API from a fresh
(default) guard: any sequence of `add` calls and of `pop` calls on a
present identity (callers only ever pop an identity returned by a
successful `add`). -/
inductive ReachableGuard : RecursionInfo → Prop where
  | empty : ReachableGuard ⟨[], 0⟩
  | step_add {g : RecursionInfo} (id : ℕ) :
      ReachableGuard g → ReachableGuard (SerRecursionGuard.add g id).1
  | step_pop {g : RecursionInfo} (id : ℕ) :
      ReachableGuard g → id ∈ g.ids → ReachableGuard (SerRecursionGuard.pop g id)

/-- Add every identity of a list in order, keeping only the final state
(used to express "N balanced add/pop pairs" and to build concrete deep
states). -/
def addAll (g : RecursionInfo) : List ℕ → RecursionInfo
  | [] => g
  | id :: rest => addAll (SerRecursionGuard.add g id).1 rest

/-- Whether every `add` in `addAll` succeeds. -/
def addAllOk (g : RecursionInfo) : List ℕ → Bool
  | [] => true
  | id :: rest =>
    match SerRecursionGuard.add g id with
    | (g1, .ok _) => addAllOk g1 rest
    | (_, .error _) => false

/-- Pop every identity of a list in order. -/
def popAll (g : RecursionInfo) : List ℕ → RecursionInfo
  | [] => g
  | id :: rest => popAll (SerRecursionGuard.pop g id) rest

/-! ## Arguments validator (`src/validators/arguments.rs`) -/

/-- Model of `LookupKey` (from `src/lookup_key.rs`, outside the corpus).  Modelled
from the spec: an alias key plus an optional fallback-to-name key, tried in
order against the keyword mapping; a plain name is a `LookupKey` with no
fallback. -/
structure LookupKey where
  first : String
  alt : Option String
deriving DecidableEq, Repr

/-- Model of `LookupKey::from_string`. -/
def LookupKey.from_string (name : String) : LookupKey := ⟨name, none⟩

/-- Whether a Python dict key equals a lookup string (string keys compare
by content; no non-string modelled key equals a string). -/
def PyValue.eqStr : PyValue → String → Bool
  | .pyStr s, t => s = t
  | _, _ => false

/-- Keyword-mapping lookup by a `LookupKey`: try the first (alias) key,
then the fallback; return the matched key string and the value.  Modelled
from the spec (`LookupKey::py_get_dict_item` is outside the corpus). -/
def LookupKey.lookup (lk : LookupKey) (kwargs : List (PyValue × PyValue)) :
    Option (String × PyValue) :=
  match kwargs.find? (fun p => p.1.eqStr lk.first) with
  | some p => some (lk.first, p.2)
  | none =>
    match lk.alt with
    | some a =>
      match kwargs.find? (fun p => p.1.eqStr a) with
      | some p => some (a, p.2)
      | none => none
    | none => none

/-- A compiled child validator: the uniform `validate` contract of
`CombinedValidator`, abstracted to its input/output behaviour. -/
def ChildValidator : Type := PyValue → ValResult PyValue

/-- Model of `Argument` (`arguments.rs` lines 15–24). -/
structure Argument where
  positional : Bool
  name : String
  kw_lookup_key : Option LookupKey
  kwarg_key : Option String
  default : Option PyValue
  default_factory : Option (Unit → PyValue)
  validator : ChildValidator

/-- Model of `ArgumentsValidator` (`arguments.rs` lines 26–32). -/
structure ArgumentsValidator where
  arguments : List Argument
  positional_args_count : ℕ
  var_args_validator : Option ChildValidator
  var_kwargs_validator : Option ChildValidator

/-- Model of `input.validate_args()` (`input_python.rs` lines 143–157): a dict is
kwargs-only; an `ArgsKwargs` carries both; a tuple or list is
positional-only; anything else is the `arguments_type` error.  The result
models `PyArgs` as (optional positional list, optional keyword pairs). -/
def validate_args (v : PyValue) :
    ValResult (Option (List PyValue) × Option (List (PyValue × PyValue))) :=
  match v with
  | .pyDict items => .ok (none, some items)
  | .pyArgsKwargs args kwargs => .ok (some args, kwargs)
  | .pyTuple items => .ok (some items, none)
  | .pyList items => .ok (some items, none)
  | _ => .error (ValError.new .argumentsType v)

/-- Model of `strict_str` on a raw keyword key: only (modelled) strings are
string-like. -/
def strict_str (v : PyValue) : ValResult String :=
  match v with
  | .pyStr s => .ok s
  | _ => .error (ValError.new .stringType v)

/-- Model of `as_loc_item` (`input_python.rs` lines 707–717): a string key becomes a
string path segment, an int an integer segment, anything else its
rendering (modelled by a fixed placeholder rendering). -/
def as_loc_item (v : PyValue) : LocItem :=
  match v with
  | .pyStr s => .key s
  | .pyInt n => .index n
  | .pyIntSub n => .index n
  | .pyBool b => .index (if b then 1 else 0)
  | _ => .key "<repr>"

/-- Model of `dict.set_item`: replace the value under the key if present, else
append (Python dicts keep insertion order). -/
def dictSet (d : List (String × PyValue)) (k : String) (v : PyValue) : List (String × PyValue) :=
  match d with
  | [] => [(k, v)]
  | (k0, v0) :: rest => if k0 = k then (k, v) :: rest else (k0, v0) :: dictSet rest k v

/-- Model of `AHashSet::insert` on the used-kwargs set, keeping the duplicate-free
list model. -/
def insertStr (l : List String) (s : String) : List String :=
  if s ∈ l then l else s :: l

/-- The per-call mutable state of `ArgumentsValidator::validate`:
positional output, keyword output, consumed keyword keys, collected
errors. -/
structure ArgsState where
  output_args : List PyValue
  output_kwargs : List (String × PyValue)
  used_kwargs : List String
  errors : List ValLineError

/-- The `match (pos_value, kw_value)` block of
`ArgumentsValidator::validate` (lines 177–237) for one declared argument:
both present → `multiple_argument_values` at the argument's name;
positional only / keyword only → run the child validator, appending child
line errors under the argument's index resp. name; neither → default,
default-factory, or the missing-argument error. -/
def processOneArg (arg : Argument) (index : ℕ) (input : PyValue)
    (pos_value kw_value : Option PyValue) (st : ArgsState) : ValResult ArgsState :=
  match pos_value, kw_value with
  | some _, some kv =>
    .ok { st with errors :=
      st.errors ++ [ValLineError.new_with_loc .multipleArgumentValues kv (.key arg.name)] }
  | some pv, none =>
    match arg.validator pv with
    | .ok value => .ok { st with output_args := st.output_args ++ [value] }
    | .error (.lineErrors line_errors) =>
      .ok { st with errors :=
        st.errors ++ line_errors.map (fun e => e.with_outer_location (.index index)) }
    | .error e => .error e
  | none, some kv =>
    match arg.validator kv with
    | .ok value =>
      .ok { st with output_kwargs := dictSet st.output_kwargs (arg.kwarg_key.getD "") value }
    | .error (.lineErrors line_errors) =>
      .ok { st with errors :=
        st.errors ++ line_errors.map (fun e => e.with_outer_location (.key arg.name)) }
    | .error e => .error e
  | none, none =>
    match arg.default with
    | some default =>
      match arg.kwarg_key with
      | some kwarg_key => .ok { st with output_kwargs := dictSet st.output_kwargs kwarg_key default }
      | none => .ok { st with output_args := st.output_args ++ [default] }
    | none =>
      match arg.default_factory with
      | some factory =>
        let default := factory ()
        match arg.kwarg_key with
        | some kwarg_key => .ok { st with output_kwargs := dictSet st.output_kwargs kwarg_key default }
        | none => .ok { st with output_args := st.output_args ++ [default] }
      | none =>
        if arg.kwarg_key.isSome then
          .ok { st with errors :=
            st.errors ++ [ValLineError.new_with_loc .missingKeywordArgument input (.key arg.name)] }
        else
          .ok { st with errors :=
            st.errors ++ [ValLineError.new_with_loc .missingPositionalArgument input (.index index)] }

/-- The declared-arguments loop of `ArgumentsValidator::validate` (lines
160–238): for each argument, fetch its positional value (only when the
argument is positional) and its keyword value (only when it has a lookup
key, marking the matched key as consumed), then process the pair. -/
def processDeclared (input : PyValue) (args : Option (List PyValue))
    (kwargs : Option (List (PyValue × PyValue))) :
    List Argument → ℕ → ArgsState → ValResult ArgsState
  | [], _, st => .ok st
  | arg :: rest, index, st =>
    let pos_value : Option PyValue :=
      match args with
      | some l => if arg.positional then l.get? index else none
      | none => none
    let found : Option (String × PyValue) :=
      match kwargs, arg.kw_lookup_key with
      | some kw, some lk => lk.lookup kw
      | _, _ => none
    let st1 : ArgsState :=
      match found with
      | some (key, _) => { st with used_kwargs := insertStr st.used_kwargs key }
      | none => st
    match processOneArg arg index input pos_value (found.map Prod.snd) st1 with
    | .ok st2 => processDeclared input args kwargs rest (index + 1) st2
    | .error e => .error e

/-- The extra-positional loop body (lines 244–264) over the slice of
positional values beyond `positional_args_count`, with `index` the offset
into the slice. -/
def processExtraPositionalItems (v : ArgumentsValidator) :
    List PyValue → ℕ → ArgsState → ValResult ArgsState
  | [], _, st => .ok st
  | item :: rest, index, st =>
    match v.var_args_validator with
    | some validator =>
      match validator item with
      | .ok value =>
        processExtraPositionalItems v rest (index + 1)
          { st with output_args := st.output_args ++ [value] }
      | .error (.lineErrors line_errors) =>
        processExtraPositionalItems v rest (index + 1)
          { st with errors := st.errors ++
              line_errors.map (fun e => e.with_outer_location (.index (index + v.positional_args_count))) }
      | .error e => .error e
    | none =>
      processExtraPositionalItems v rest (index + 1)
        { st with errors := st.errors ++ [ValLineError.new_with_loc
            .unexpectedPositionalArgument item (.index (index + v.positional_args_count))] }

/-- Step 2 of `ArgumentsValidator::validate` (lines 240–267): positional
values beyond `positional_args_count` are validated by the var-args
validator, or each reported as `unexpected_positional_argument`. -/
def processExtraPositional (v : ArgumentsValidator) (args : Option (List PyValue))
    (st : ArgsState) : ValResult ArgsState :=
  match args with
  | none => .ok st
  | some l =>
    if l.length > v.positional_args_count then
      processExtraPositionalItems v (l.drop v.positional_args_count) 0 st
    else .ok st

/-- Step 3 of `ArgumentsValidator::validate` (lines 269–305): every keyword
entry not consumed in step 1 must have a string-like key (`invalid_key`
otherwise, collected, not fatal); unconsumed entries go to the var-kwargs
validator, or are reported as `unexpected_keyword_argument`. -/
def processExtraKwItems (v : ArgumentsValidator) :
    List (PyValue × PyValue) → ArgsState → ValResult ArgsState
  | [], st => .ok st
  | (raw_key, value) :: rest, st =>
    match strict_str raw_key with
    | .error (.lineErrors line_errors) =>
      processExtraKwItems v rest
        { st with errors := st.errors ++
            line_errors.map (fun e => (e.with_outer_location (as_loc_item raw_key)).with_kind .invalidKey) }
    | .error e => .error e
    | .ok key =>
      if key ∈ st.used_kwargs then
        processExtraKwItems v rest st
      else
        match v.var_kwargs_validator with
        | some validator =>
          match validator value with
          | .ok value1 =>
            processExtraKwItems v rest
              { st with output_kwargs := dictSet st.output_kwargs key value1 }
          | .error (.lineErrors line_errors) =>
            processExtraKwItems v rest
              { st with errors := st.errors ++
                  line_errors.map (fun e => e.with_outer_location (as_loc_item raw_key)) }
          | .error e => .error e
        | none =>
          processExtraKwItems v rest
            { st with errors := st.errors ++ [ValLineError.new_with_loc
                .unexpectedKeywordArgument value (as_loc_item raw_key)] }

/-- Step 3 wrapper: a missing kwargs mapping contributes nothing. -/
def processExtraKw (v : ArgumentsValidator) (kwargs : Option (List (PyValue × PyValue)))
    (st : ArgsState) : ValResult ArgsState :=
  match kwargs with
  | none => .ok st
  | some kw => processExtraKwItems v kw st

/-- Model of `ArgumentsValidator::validate` (lines 141–317): extract the call
arguments, run the three processing steps, and either fail with the full
collected error list or succeed with `(tuple(output_args),
output_kwargs)`. -/
def ArgumentsValidator.validate (v : ArgumentsValidator) (input : PyValue) : ValResult PyValue :=
  match validate_args input with
  | .error e => .error e
  | .ok (args, kwargs) =>
    match processDeclared input args kwargs v.arguments 0 ⟨[], [], [], []⟩ with
    | .error e => .error e
    | .ok st1 =>
      match processExtraPositional v args st1 with
      | .error e => .error e
      | .ok st2 =>
        match processExtraKw v kwargs st2 with
        | .error e => .error e
        | .ok st3 =>
          if st3.errors.isEmpty then
            .ok (.pyTuple [.pyTuple st3.output_args,
              .pyDict (st3.output_kwargs.map (fun p => (PyValue.pyStr p.1, p.2)))])
          else .error (.lineErrors st3.errors)

/-! ## Arguments schema build (`arguments.rs` lines 34–115) -/

/-- The fields `ArgumentsValidator::build` reads from one entry of
`arguments_schema`, with the child validator already compiled
(`build_validator` is outside the embedded fragment; schema-extraction
failures are out of scope). -/
structure ArgSchemaItem where
  name : String
  mode : String
  alias_key : Option String
  default : Option PyValue
  default_factory : Option (Unit → PyValue)
  validator : ChildValidator

/-- The two schema errors raised by the default/default-factory checks of
`ArgumentsValidator::build` (lines 83–89). -/
inductive ArgsBuildError where
  | defaultAndFactoryTogether
  | nonDefaultAfterDefault
deriving DecidableEq, Repr

/-- One argument entry has a default or a default factory. -/
def ArgSchemaItem.hasDefault (it : ArgSchemaItem) : Bool :=
  it.default.isSome || it.default_factory.isSome

/-- The argument loop of `ArgumentsValidator::build` (lines 52–99):
compute positionality and the keyword lookup/output keys from the mode,
run the two default checks threading `had_default_arg`, and accumulate the
compiled arguments and the positional-slot count. -/
def buildArgsLoop (populate_by_name : Bool) :
    List ArgSchemaItem → ℕ → Bool → List Argument → ℕ →
    Except ArgsBuildError (List Argument × ℕ)
  | [], _, _, acc, pos_count => .ok (acc, pos_count)
  | it :: rest, arg_index, had_default_arg, acc, pos_count =>
    let positional := it.mode = "positional_only" || it.mode = "positional_or_keyword"
    let pos_count1 := if positional then arg_index + 1 else pos_count
    let kw_modes := it.mode = "keyword_only" || it.mode = "positional_or_keyword"
    let kw_lookup_key : Option LookupKey :=
      if kw_modes then
        match it.alias_key with
        | some a => some ⟨a, if populate_by_name then some it.name else none⟩
        | none => some (LookupKey.from_string it.name)
      else none
    let kwarg_key : Option String := if kw_modes then some it.name else none
    if it.default.isSome && it.default_factory.isSome then
      .error .defaultAndFactoryTogether
    else if had_default_arg && (it.default.isNone && it.default_factory.isNone) then
      .error .nonDefaultAfterDefault
    else
      buildArgsLoop populate_by_name rest (arg_index + 1)
        (had_default_arg || it.hasDefault)
        (acc ++ [⟨positional, it.name, kw_lookup_key, kwarg_key,
          it.default, it.default_factory, it.validator⟩])
        pos_count1

/-- Model of `ArgumentsValidator::build` (lines 37–114), over the already-extracted
schema fields. -/
def buildArgs (populate_by_name : Bool) (items : List ArgSchemaItem)
    (var_args_validator var_kwargs_validator : Option ChildValidator) :
    Except ArgsBuildError ArgumentsValidator :=
  match buildArgsLoop populate_by_name items 0 false [] 0 with
  | .error e => .error e
  | .ok (arguments, positional_args_count) =>
    .ok ⟨arguments, positional_args_count, var_args_validator, var_kwargs_validator⟩

/-! ## Typed-dict fields serializer build
(`src/serializers/type_serializers/typed_dict.rs`) -/

/-- Modelled from the spec: a child serializer schema document.  The
recursive serializer compiler (`CombinedSerializer::build`, outside the
corpus) is modelled by its contract: a well-formed child schema compiles,
a malformed one is a schema error aborting construction. -/
inductive SerSchema where
  | valid (id : ℕ)
  | invalid
deriving DecidableEq, Repr

/-- A compiled serializer node (opaque to the typed-dict builder). -/
inductive CombinedSerializer where
  | node (id : ℕ)
deriving DecidableEq, Repr

/-- Modelled from the spec: `CombinedSerializer::build` on the modelled
schema documents. -/
def CombinedSerializer.build : SerSchema → Except String CombinedSerializer
  | .valid id => .ok (.node id)
  | .invalid => .error "schema error"

/-- Model of `ExtraBehavior` (`build_tools.rs`, outside the corpus; its three modes
are fixed by the spec's fields-mode policy). -/
inductive ExtraBehavior where
  | allow
  | forbid
  | ignore
deriving DecidableEq, Repr

/-- Model of `FieldsMode` of the fields serializer. -/
inductive FieldsMode where
  | typedDictAllow
  | simpleDict
deriving DecidableEq, Repr

/-- The fields `TypedDictBuilder::build` reads from one entry of
`fields`. -/
structure FieldInfo where
  required : Option Bool
  serialization_exclude : Option Bool
  serialization_alias : Option String
  schema : SerSchema
deriving DecidableEq, Repr

/-- Model of `SerField`. -/
structure SerField where
  key : String
  alias_key : Option String
  serializer : Option CombinedSerializer
  required : Bool
deriving DecidableEq, Repr

/-- Model of `GeneralFieldsSerializer` as assembled by `TypedDictBuilder::build`. -/
structure GeneralFieldsSerializer where
  fields : List (String × SerField)
  mode : FieldsMode
  extra_serializer : Option CombinedSerializer
  computed_fields : List String
deriving DecidableEq, Repr

/-- The field loop of `TypedDictBuilder::build` (lines 46–64): an excluded
field keeps no serializer; otherwise its child schema is compiled, wrapping
a child failure as a field-level schema error. -/
def buildSerFields (total : Bool) :
    List (String × FieldInfo) → List (String × SerField) →
    Except String (List (String × SerField))
  | [], acc => .ok acc
  | (key, fi) :: rest, acc =>
    let required := fi.required.getD total
    if fi.serialization_exclude = some true then
      buildSerFields total rest (acc ++ [(key, ⟨key, none, none, required⟩)])
    else
      match CombinedSerializer.build fi.schema with
      | .error e => .error ("Field `" ++ key ++ "`:\n  " ++ e)
      | .ok serializer =>
        buildSerFields total rest
          (acc ++ [(key, ⟨key, fi.serialization_alias, some serializer, required⟩)])

/-- The fields mode derived from the configured extra behavior
(`typed_dict.rs` lines 30–33). -/
def fieldsModeFor : ExtraBehavior → FieldsMode
  | .allow => .typedDictAllow
  | _ => .simpleDict

/-- The `extras_schema` match of `TypedDictBuilder::build` (lines 38–44):
with no `extras_schema` nothing is built; with one, the mode must allow
extras — a compile-time schema error otherwise — and the child schema is
compiled. -/
def buildExtraSerializer (extras_schema : Option SerSchema) (fields_mode : FieldsMode) :
    Except String (Option CombinedSerializer) :=
  match extras_schema with
  | none => .ok none
  | some v =>
    match fields_mode with
    | .typedDictAllow =>
      match CombinedSerializer.build v with
      | .ok s => .ok (some s)
      | .error e => .error e
    | .simpleDict => .error "extras_schema can only be used if extra_behavior=allow"

/-- Model of `TypedDictBuilder::build` (lines 20–69), over the already-extracted
schema fields: derive the fields mode from the extra behavior, compile the
optional `extras_schema`, then compile the declared fields and assemble
the serializer. -/
def typedDictBuild (total : Option Bool) (extra_behavior : ExtraBehavior)
    (fields_dict : List (String × FieldInfo)) (extras_schema : Option SerSchema)
    (computed_fields : List String) : Except String GeneralFieldsSerializer :=
  match buildExtraSerializer extras_schema (fieldsModeFor extra_behavior) with
  | .error e => .error e
  | .ok extra_serializer =>
    match buildSerFields (total.getD true) fields_dict [] with
    | .error e => .error e
    | .ok fields =>
      .ok ⟨fields, fieldsModeFor extra_behavior, extra_serializer, computed_fields⟩

/-! ## Spec-side reference: the lax integer coercion order

The following definitions follow the specification's words, not the code:
a fixed ordered list of coercion branches, each with a structural match
predicate; the first structurally matching branch is terminal (its
outcome — success or value-range failure — is the final result, with no
fall-through).  They are compared with `validate_int` in the theorem for
the branch-order claim. -/

/-- One lax coercion branch: a structural match predicate and the branch's
terminal outcome. -/
structure IntCoercionBranch where
  structMatch : PyValue → Bool
  run : PyValue → ValResult (ValidationMatch EitherInt)

/-- Try branches in order; the first structurally matching branch is
terminal; no matching branch yields the wrong-type error. -/
def runIntBranches : List IntCoercionBranch → PyValue → ValResult (ValidationMatch EitherInt)
  | [], v => .error (ValError.new .intType v)
  | b :: rest, v => if b.structMatch v then b.run v else runIntBranches rest v

/-- Branch 1: exact int → `Exact`. -/
def branchExactInt : IntCoercionBranch :=
  ⟨fun v => v.is_exact_instance_of_int, fun v => .ok (ValidationMatch.exact (.py v))⟩

/-- Branch 2: int subtype → `Strict`, except boolean which is only ever
`Lax` here (hence the spec's "excluding boolean"). -/
def branchIntSubtype : IntCoercionBranch :=
  ⟨fun v => v.is_instance_of_int,
   fun v =>
     if v.is_instance_of_bool then
       (EitherInt.upcast v).map (fun ei => ValidationMatch.new ei .lax)
     else
       (EitherInt.upcast v).map (fun ei => ValidationMatch.new ei .strict)⟩

/-- Branch 3: numeric string (string or byte-string); decode and parse
failures inside the branch are terminal. -/
def branchNumericString : IntCoercionBranch :=
  ⟨fun v => match v with
    | .pyStr _ => true
    | .pyBytes _ => true
    | _ => false,
   fun v => match maybe_as_string v .intParsing with
    | .error e => .error e
    | .ok (some s) => (str_as_int v s).map (fun ei => ValidationMatch.new ei .lax)
    | .ok none => .error (ValError.new .intType v)⟩

/-- Branch 4: exact float; a non-integral value is a terminal value-range
failure. -/
def branchExactFloat : IntCoercionBranch :=
  ⟨fun v => v.is_exact_instance_of_float,
   fun v => match extract_f64 v with
    | some f => (float_as_int v f).map (fun ei => ValidationMatch.new ei .lax)
    | none => .error (ValError.new .intType v)⟩

/-- Branch 5: decimal (exact or subclass); a non-integral value is a
terminal value-range failure. -/
def branchDecimal : IntCoercionBranch :=
  ⟨fun v => match v with
    | .pyDecimal _ => true
    | .pyDecimalSub _ => true
    | _ => false,
   fun v => match strict_decimal v with
    | .ok d => (decimal_as_int v d).map (fun ei => ValidationMatch.new ei .lax)
    | .error e => .error e⟩

/-- Branch 6: any remaining float-extractable value. -/
def branchFloat : IntCoercionBranch :=
  ⟨fun v => (extract_f64 v).isSome,
   fun v => match extract_f64 v with
    | some f => (float_as_int v f).map (fun ei => ValidationMatch.new ei .lax)
    | none => .error (ValError.new .intType v)⟩

/-- Branch 7: enum-like value-unwrap. -/
def branchEnumUnwrap : IntCoercionBranch :=
  ⟨fun v => (maybe_as_enum v).isSome,
   fun v => match maybe_as_enum v with
    | some ev => .ok (ValidationMatch.new (.py ev) .lax)
    | none => .error (ValError.new .intType v)⟩

/-- The coercion order claimed by the specification for lax integer
validation. -/
def specLaxIntOrder : List IntCoercionBranch :=
  [branchExactInt, branchIntSubtype, branchNumericString, branchExactFloat,
   branchDecimal, branchFloat, branchEnumUnwrap]

/-! ## Concrete schemas and states used to settle individual claims -/

/-- An accept-everything child validator. -/
def okValidator : ChildValidator := fun v => .ok v

/-- A required positional-only argument (no keyword key, no default). -/
def reqPosArg (name : String) : Argument :=
  ⟨true, name, none, none, none, none, okValidator⟩

/-- A compiled schema of `n` required positional-only arguments. -/
def reqPosSchema (n : ℕ) : ArgumentsValidator :=
  ⟨(List.range n).map (fun i => reqPosArg ("a" ++ toString i)), n, none, none⟩

/-- The expected `missing_positional_argument` line errors for indices
`k, k+1, …, k+n-1`. -/
def missingPosErrors (input : PyValue) : ℕ → ℕ → List ValLineError
  | _, 0 => []
  | k, n + 1 =>
    ValLineError.new_with_loc .missingPositionalArgument input (.index (k : ℤ)) ::
      missingPosErrors input (k + 1) n

/-- Schema for the duplicate-value example: position 0 is
positional-or-keyword argument `a`, position 1 is positional-only `b`. -/
def dupSchema : ArgumentsValidator :=
  ⟨[⟨true, "a", some (LookupKey.from_string "a"), some "a", none, none, okValidator⟩,
    ⟨true, "b", none, none, none, none, okValidator⟩], 2, none, none⟩

/-- Schema for the default example: `a` required positional-only, `b`
positional-only with default `5`. -/
def defaultSchema : ArgumentsValidator :=
  ⟨[⟨true, "a", none, none, none, none, okValidator⟩,
    ⟨true, "b", none, none, some (.pyInt 5), none, okValidator⟩], 2, none, none⟩

/-- A guard state produced by 201 successful `add` calls through the
guard's own API (the deepest state whose adds all succeed). -/
def deepGuard : RecursionInfo := addAll ⟨[], 0⟩ (List.range 201)

/-- The result of an `add` call is one of the two circular-reference
errors. -/
def isCircularRefError : Except String ℕ → Bool
  | .error "Circular reference detected (id repeated)" => true
  | .error "Circular reference detected (depth exceeded)" => true
  | _ => false

/-- An argument entry lacks both a default and a default factory. -/
def ArgSchemaItem.noDefault (it : ArgSchemaItem) : Bool := !it.hasDefault

/-- Spec-side ordering rule for defaults, amended to all modes: some
argument with a default or default-factory is followed (anywhere later in
the list, regardless of mode) by an argument with neither. -/
def OrderingViolation (items : List ArgSchemaItem) : Prop :=
  ∃ l1 d l2, items = l1 ++ d :: l2 ∧ d.hasDefault = true ∧ ∃ nd ∈ l2, nd.hasDefault = false

/-- First item of the build-order counterexample: positional-only with a
default. -/
def cexItemA : ArgSchemaItem := ⟨"a", "positional_only", none, some (.pyInt 1), none, okValidator⟩

/-- Second item of the build-order counterexample: keyword-only without a
default — legal Python (`def f(a=1, *, b)`), yet rejected by the build. -/
def cexItemB : ArgSchemaItem := ⟨"b", "keyword_only", none, none, none, okValidator⟩

/-! # Theorems -/

/-- C5: for lax integer validation, `validate_int` is exactly the
first-structural-match-is-terminal run of the spec's ordered branch list
(exact int, int subtype excluding boolean, numeric string, exact float,
decimal, float, enum-like value-unwrap).  A later branch runs only when
every earlier branch fails to match structurally, and a value-range
failure inside a matched branch (for example a non-integral exact float)
is that branch's terminal result — `runIntBranches` never falls through
out of a matched branch. -/
theorem validate_int_lax_branch_order (v : PyValue) :
    validate_int v false = runIntBranches specLaxIntOrder v := by
  cases v <;> rfl

/-- C6: a Python boolean fails strict numeric validation (`validate_int`
and `validate_float`) with the wrong-type error, and passes non-strict
numeric validation with exactness `Lax` — never `Strict`, never
`Exact`. -/
theorem bool_numeric_lax_only (b : Bool) :
    validate_int (.pyBool b) true = .error (ValError.new .intType (.pyBool b))
    ∧ validate_int (.pyBool b) false =
        .ok (ValidationMatch.new (.i (if b then 1 else 0)) .lax)
    ∧ validate_float (.pyBool b) true = .error (ValError.new .floatType (.pyBool b))
    ∧ validate_float (.pyBool b) false =
        .ok (ValidationMatch.new (.f64 (if b then 1 else 0)) .lax) := by
  cases b <;> exact ⟨rfl, rfl, rfl, rfl⟩

/-- C3: an argument that receives both a positional and a keyword value is
recorded as a `multiple_argument_values` error at the argument's name, and
contributes to neither the positional nor the keyword output (the state
update touches only the error list); and the call `(args=[1,2],
kwargs={"a":3})` against a schema whose position 0 is argument `a` fails
with exactly that one error located at `a` — no partial success. -/
theorem multiple_argument_values_detection :
    (∀ (arg : Argument) (index : ℕ) (input pv kv : PyValue) (st : ArgsState),
      processOneArg arg index input (some pv) (some kv) st =
        .ok { st with errors := st.errors ++
          [ValLineError.new_with_loc .multipleArgumentValues kv (.key arg.name)] })
    ∧ dupSchema.validate (.pyArgsKwargs [.pyInt 1, .pyInt 2] (some [(.pyStr "a", .pyInt 3)])) =
        .error (.lineErrors
          [ValLineError.new_with_loc .multipleArgumentValues (.pyInt 3) (.key "a")]) := by
  exact ⟨fun arg index input pv kv st => rfl, rfl⟩

/-- C4: an argument that receives neither a positional nor a keyword value
uses its default (resp. invokes its default factory at validation time) in
the keyword output when it has a keyword key and in the positional output
otherwise; and for the schema `(a: positional, b: positional with
default=5)` the call `(args=[1], kwargs={})` yields
`(args=(1,5), kwargs={})`. -/
theorem default_used_when_absent :
    (∀ (arg : Argument) (index : ℕ) (input : PyValue) (st : ArgsState) (d : PyValue),
      arg.default = some d →
      processOneArg arg index input none none st =
        .ok (match arg.kwarg_key with
          | some k => { st with output_kwargs := dictSet st.output_kwargs k d }
          | none => { st with output_args := st.output_args ++ [d] }))
    ∧ (∀ (arg : Argument) (index : ℕ) (input : PyValue) (st : ArgsState)
        (f : Unit → PyValue), arg.default = none → arg.default_factory = some f →
      processOneArg arg index input none none st =
        .ok (match arg.kwarg_key with
          | some k => { st with output_kwargs := dictSet st.output_kwargs k (f ()) }
          | none => { st with output_args := st.output_args ++ [f ()] }))
    ∧ defaultSchema.validate (.pyArgsKwargs [.pyInt 1] none) =
        .ok (.pyTuple [.pyTuple [.pyInt 1, .pyInt 5], .pyDict []]) := by
  refine ⟨fun arg index input st d hd => ?_, fun arg index input st f hd hf => ?_, rfl⟩
  · unfold processOneArg
    rw [hd]
    cases arg.kwarg_key <;> rfl
  · unfold processOneArg
    rw [hd, hf]
    cases arg.kwarg_key <;> rfl

/-- Witness for the default/default-factory claim at concrete inputs: a
keyword-keyed argument's default lands in the keyword output, a
positional-only argument's factory result in the positional output. -/
theorem default_used_when_absent_witness :
    processOneArg ⟨true, "p", none, some "p", some (.pyInt 7), none, okValidator⟩ 0 .pyNone
        none none ⟨[], [], [], []⟩ =
      .ok ⟨[], [("p", .pyInt 7)], [], []⟩
    ∧ processOneArg ⟨true, "q", none, none, none, some (fun _ => .pyInt 8), okValidator⟩ 1
        .pyNone none none ⟨[], [], [], []⟩ =
      .ok ⟨[.pyInt 8], [], [], []⟩ := by
  have h := default_used_when_absent
  exact ⟨h.1 _ 0 .pyNone _ (.pyInt 7) rfl, h.2.1 _ 1 .pyNone _ (fun _ => .pyInt 8) rfl rfl⟩

/-- Processing any list of required positional-only arguments against an
empty positional list and no keyword mapping collects one
`missing_positional_argument` error per argument — no short-circuiting —
while leaving the outputs untouched. -/
theorem processDeclared_all_missing (input : PyValue) (names : List String) (k : ℕ)
    (st : ArgsState) :
    processDeclared input (some []) none (names.map reqPosArg) k st =
      .ok { st with errors := st.errors ++ missingPosErrors input k names.length } := by
  induction names generalizing k st with
  | nil => simp [processDeclared, missingPosErrors]
  | cons nm rest ih =>
    simp only [List.map_cons, processDeclared, List.get?, reqPosArg, processOneArg, ih,
      missingPosErrors, List.length_cons]
    simp [List.append_assoc]

/-- The collected missing-positional errors for indices `k, …, k+n-1`, as
a map over `List.range`. -/
theorem missingPosErrors_eq_map (input : PyValue) (k n : ℕ) :
    missingPosErrors input k n =
      (List.range n).map (fun (i : ℕ) =>
        ValLineError.new_with_loc .missingPositionalArgument input (.index ((k + i : ℕ) : ℤ))) := by
  induction n generalizing k with
  | zero => rfl
  | succ m ih =>
    rw [missingPosErrors, ih, List.range_succ_eq_map, List.map_cons, List.map_map]
    refine congrArg₂ _ (by rw [Nat.add_zero]) ?_
    refine List.map_congr_left ?_
    intro i _
    have h1 : k + 1 + i = k + (i + 1) := by omega
    simp only [Function.comp, Nat.succ_eq_add_one, h1]

/-- Specialisation to start index 0: the `k`-th collected error is located
at index `k`. -/
theorem missingPosErrors_zero_map (input : PyValue) (n : ℕ) :
    missingPosErrors input 0 n =
      (List.range n).map (fun (i : ℕ) =>
        ValLineError.new_with_loc .missingPositionalArgument input (.index (i : ℤ))) := by
  rw [missingPosErrors_eq_map]
  refine List.map_congr_left ?_
  intro i _
  rw [Nat.zero_add]

/-- C1: arguments validation collects every error rather than stopping at
the first.  First conjunct: for every `n`, validating `(args=[],
kwargs={})` against a schema of `n+1` required positional arguments fails
with exactly `n+1` errors, one `missing_positional_argument` per declared
argument, each located at its own index.  Second conjunct: errors from the
declared-argument phase and the extra-keyword phase are aggregated into
one failure list. -/
theorem arguments_all_errors_collected :
    (∀ n : ℕ, (reqPosSchema (n + 1)).validate (.pyArgsKwargs [] none) =
      .error (.lineErrors ((List.range (n + 1)).map (fun (i : ℕ) =>
        ValLineError.new_with_loc .missingPositionalArgument (.pyArgsKwargs [] none)
          (.index (i : ℤ))))))
    ∧ (reqPosSchema 1).validate (.pyArgsKwargs [] (some [(.pyStr "x", .pyInt 9)])) =
      .error (.lineErrors
        [ValLineError.new_with_loc .missingPositionalArgument
            (.pyArgsKwargs [] (some [(.pyStr "x", .pyInt 9)])) (.index 0),
          ValLineError.new_with_loc .unexpectedKeywordArgument (.pyInt 9) (.key "x")]) := by
  constructor
  · intro n
    have hmap : (List.range (n + 1)).map (fun i => reqPosArg ("a" ++ toString i)) =
        ((List.range (n + 1)).map (fun i => "a" ++ toString i)).map reqPosArg := by
      rw [List.map_map]; rfl
    have hmain := processDeclared_all_missing (.pyArgsKwargs [] none)
      ((List.range (n + 1)).map (fun i => "a" ++ toString i)) 0 ⟨[], [], [], []⟩
    rw [List.length_map, List.length_range] at hmain
    simp only [ArgumentsValidator.validate, reqPosSchema, validate_args, hmap, hmain]
    simp only [processExtraPositional, processExtraKw, List.length_nil, missingPosErrors]
    simp only [List.nil_append, gt_iff_lt, Nat.not_lt_zero, if_false, List.isEmpty_cons,
      Bool.false_eq_true, if_neg, ite_false]
    rw [show (ValLineError.new_with_loc .missingPositionalArgument (.pyArgsKwargs [] none)
        (.index ((0 : ℕ) : ℤ)) :: missingPosErrors (.pyArgsKwargs [] none) 1 n) =
        missingPosErrors (.pyArgsKwargs [] none) 0 (n + 1) from rfl]
    rw [missingPosErrors_zero_map]
  · rfl

/-- A successful `add` always returns the identity it was given. -/
theorem add_ok_eq (g : RecursionInfo) (id x : ℕ)
    (h : (SerRecursionGuard.add g id).2 = .ok x) :
    (SerRecursionGuard.add g id).2 = .ok id := by
  unfold SerRecursionGuard.add at *
  by_cases hm : id ∈ g.ids
  · simp [hm] at h
  · by_cases hd : MAX_DEPTH < g.depth
    · simp [hm, hd] at h
    · simp [hm, hd]

/-- A successful `add` pushes the identity and increments the depth. -/
theorem add_ok_state (g : RecursionInfo) (id : ℕ)
    (h : (SerRecursionGuard.add g id).2 = .ok id) :
    (SerRecursionGuard.add g id).1 = ⟨id :: g.ids, g.depth + 1⟩ := by
  unfold SerRecursionGuard.add at *
  by_cases hm : id ∈ g.ids
  · simp [hm] at h
  · by_cases hd : MAX_DEPTH < g.depth
    · simp [hm, hd] at h
    · simp [hm, hd]

/-- The matching `pop` of a successful `add` restores the exact pre-add
guard state. -/
theorem add_pop_restores (g : RecursionInfo) (id : ℕ)
    (h : (SerRecursionGuard.add g id).2 = .ok id) :
    SerRecursionGuard.pop (SerRecursionGuard.add g id).1 id = g := by
  rw [add_ok_state g id h]
  unfold SerRecursionGuard.pop
  simp [List.erase_cons_head]

/-- Model of `popAll` peels the last pop off an appended singleton. -/
theorem popAll_append (g : RecursionInfo) (l : List ℕ) (id : ℕ) :
    popAll g (l ++ [id]) = SerRecursionGuard.pop (popAll g l) id := by
  induction l generalizing g with
  | nil => rfl
  | cons x xs ih => exact ih (SerRecursionGuard.pop g x)

/-- C2 (amended): the recursion guard restores its state on the balanced
paths, and a failed `add` never increments the depth; but the two failure
paths differ — an `add` of an already-present identity leaves the guard
unchanged, while an `add` that fails on the depth ceiling retains the
freshly inserted identity in the visited set (the insert happens before
the depth check and is not rolled back).  A successful `add` followed by
its matching `pop` restores the exact pre-add state, and after any number
of balanced nested add/pop pairs the guard — its depth in particular —
returns to its starting state. -/
theorem recursion_guard_balanced_restoration :
    (∀ (g : RecursionInfo) (id : ℕ), (SerRecursionGuard.add g id).2 = .ok id →
      SerRecursionGuard.pop (SerRecursionGuard.add g id).1 id = g)
    ∧ (∀ (g : RecursionInfo) (id : ℕ), id ∈ g.ids →
      (SerRecursionGuard.add g id).1 = g)
    ∧ (∀ (g : RecursionInfo) (id : ℕ), id ∉ g.ids → g.depth > MAX_DEPTH →
      (SerRecursionGuard.add g id).1 = ⟨id :: g.ids, g.depth⟩)
    ∧ (∀ (g : RecursionInfo) (l : List ℕ), addAllOk g l = true →
      popAll (addAll g l) l.reverse = g) := by
  refine ⟨add_pop_restores, ?_, ?_, ?_⟩
  · intro g id hm
    unfold SerRecursionGuard.add
    simp [hm]
  · intro g id hm hd
    unfold SerRecursionGuard.add
    simp [hm, hd]
  · intro g l
    induction l generalizing g with
    | nil => intro _; rfl
    | cons id rest ih =>
      intro h
      unfold addAllOk at h
      rcases hadd : SerRecursionGuard.add g id with ⟨g1, r⟩
      rw [hadd] at h
      cases r with
      | error e => simp at h
      | ok x =>
        have h2 : (SerRecursionGuard.add g id).2 = .ok id :=
          add_ok_eq g id x (by rw [hadd])
        have h1 : (SerRecursionGuard.add g id).1 = g1 := by rw [hadd]
        rw [List.reverse_cons]
        show popAll (addAll (SerRecursionGuard.add g id).1 rest) (rest.reverse ++ [id]) = g
        rw [popAll_append, h1, ih g1 h, ← h1, add_pop_restores g id h2]

/-- Witness for the amended guard claim: a concrete successful add/pop
pair restores the empty guard; an `add` of a present identity leaves the
state unchanged; an `add` on a too-deep guard keeps the new identity; two
balanced pairs restore the start state. -/
theorem recursion_guard_balanced_restoration_witness :
    SerRecursionGuard.pop (SerRecursionGuard.add ⟨[], 0⟩ 3).1 3 = ⟨[], 0⟩
    ∧ (SerRecursionGuard.add ⟨[3], 1⟩ 3).1 = ⟨[3], 1⟩
    ∧ (SerRecursionGuard.add ⟨[], 201⟩ 5).1 = ⟨5 :: [], 201⟩
    ∧ popAll (addAll ⟨[], 0⟩ [1, 2]) [2, 1] = ⟨[], 0⟩ := by
  have h := recursion_guard_balanced_restoration
  exact ⟨h.1 ⟨[], 0⟩ 3 rfl, h.2.1 ⟨[3], 1⟩ 3 (by decide),
    h.2.2.1 ⟨[], 201⟩ 5 (by decide) (by decide), h.2.2.2 ⟨[], 0⟩ [1, 2] (by decide)⟩

set_option maxRecDepth 100000 in
/-- Counterexample to C2 as stated ("a failed add leaves the guard
unchanged: the identity is not retained in the visited set"): `deepGuard`
is reached from a fresh guard by 201 successful `add` calls; adding the
fresh identity 500 then fails with a circular-reference error, yet 500 is
retained in the visited set afterwards. -/
theorem recursion_guard_failed_add_retains_id :
    addAllOk ⟨[], 0⟩ (List.range 201) = true
    ∧ deepGuard.depth = 201
    ∧ isCircularRefError (SerRecursionGuard.add deepGuard 500).2 = true
    ∧ 500 ∉ deepGuard.ids
    ∧ 500 ∈ (SerRecursionGuard.add deepGuard 500).1.ids := by
  exact ⟨by decide, by decide, by decide, by decide, by decide⟩

/-- Every API-reachable guard state has duplicate-free identities and
depth at most `MAX_DEPTH + 1`. -/
theorem reachable_nodup_depth {g : RecursionInfo} (h : ReachableGuard g) :
    g.ids.Nodup ∧ g.depth ≤ MAX_DEPTH + 1 := by
  induction h with
  | empty => exact ⟨List.nodup_nil, by simp⟩
  | @step_add g id _ ih =>
    unfold SerRecursionGuard.add
    by_cases hm : id ∈ g.ids
    · simpa [hm] using ih
    · by_cases hd : g.depth > MAX_DEPTH
      · simp only [hm, hd, if_true, if_false, ite_true, ite_false]
        exact ⟨List.nodup_cons.mpr ⟨hm, ih.1⟩, ih.2⟩
      · simp only [hm, hd, if_true, if_false, ite_true, ite_false]
        exact ⟨List.nodup_cons.mpr ⟨hm, ih.1⟩, by omega⟩
  | @step_pop g id _ _ ih =>
    refine ⟨ih.1.erase id, ?_⟩
    show g.depth - 1 ≤ MAX_DEPTH + 1
    omega

/-- C8: on every API-reachable guard state, `add` of an identity already
in the visited set fails with a circular-reference error; after the `pop`
of that identity a subsequent `add` of the same identity succeeds; and
`add` fails with a circular-reference error whenever the depth counter
exceeds the ceiling `MAX_DEPTH = 200`. -/
theorem circular_reference_detection (g : RecursionInfo) (id : ℕ)
    (hg : ReachableGuard g) :
    (id ∈ g.ids →
      isCircularRefError (SerRecursionGuard.add g id).2 = true
      ∧ (SerRecursionGuard.add (SerRecursionGuard.pop g id) id).2 = .ok id)
    ∧ (g.depth > MAX_DEPTH →
      isCircularRefError (SerRecursionGuard.add g id).2 = true) := by
  obtain ⟨hnd, hdep⟩ := reachable_nodup_depth hg
  constructor
  · intro hm
    constructor
    · unfold SerRecursionGuard.add
      simp [hm, isCircularRefError]
    · have hne : id ∉ (SerRecursionGuard.pop g id).ids := by
        unfold SerRecursionGuard.pop
        exact hnd.not_mem_erase
      have hde : ¬ (SerRecursionGuard.pop g id).depth > MAX_DEPTH := by
        unfold SerRecursionGuard.pop
        simp only
        omega
      unfold SerRecursionGuard.add
      simp [hne, hde]
  · intro hd
    unfold SerRecursionGuard.add
    by_cases hm : id ∈ g.ids
    · simp [hm, isCircularRefError]
    · simp [hm, hd, isCircularRefError]

/-- Adding any list of identities preserves reachability. -/
theorem reachable_addAll :
    ∀ (l : List ℕ) {g : RecursionInfo}, ReachableGuard g → ReachableGuard (addAll g l)
  | [], _, h => h
  | id :: rest, _, h => reachable_addAll rest (ReachableGuard.step_add id h)

set_option maxRecDepth 100000 in
/-- Witness: on the reachable one-element guard, re-adding the present
identity 7 fails with a circular-reference error, and after its pop the
same identity can be added again; on the reachable 201-deep guard, adding
a fresh identity fails on the depth ceiling. -/
theorem circular_reference_detection_witness :
    (isCircularRefError (SerRecursionGuard.add (SerRecursionGuard.add ⟨[], 0⟩ 7).1 7).2 = true
      ∧ (SerRecursionGuard.add
          (SerRecursionGuard.pop (SerRecursionGuard.add ⟨[], 0⟩ 7).1 7) 7).2 = .ok 7)
    ∧ isCircularRefError (SerRecursionGuard.add deepGuard 99999).2 = true := by
  have h := circular_reference_detection (SerRecursionGuard.add ⟨[], 0⟩ 7).1 7
    (ReachableGuard.step_add 7 ReachableGuard.empty)
  have h2 := circular_reference_detection deepGuard 99999
    (reachable_addAll (List.range 201) ReachableGuard.empty)
  exact ⟨h.1 (by decide), h2.2 (by decide)⟩

/-- The empty argument list has no ordering violation. -/
theorem orderingViolation_nil : ¬ OrderingViolation [] := by
  rintro ⟨l1, d, l2, h, _, _⟩
  exact absurd h.symm (by simp)

/-- Unfolding an ordering violation at a cons cell. -/
theorem orderingViolation_cons (it : ArgSchemaItem) (rest : List ArgSchemaItem) :
    OrderingViolation (it :: rest) ↔
      (it.hasDefault = true ∧ ∃ nd ∈ rest, nd.hasDefault = false)
        ∨ OrderingViolation rest := by
  constructor
  · rintro ⟨l1, d, l2, heq, hd, hnd⟩
    cases l1 with
    | nil =>
      rw [List.nil_append] at heq
      rcases List.cons.inj heq with ⟨rfl, rfl⟩
      exact .inl ⟨hd, hnd⟩
    | cons x l1t =>
      rw [List.cons_append] at heq
      rcases List.cons.inj heq with ⟨rfl, hrest⟩
      exact .inr ⟨l1t, d, l2, hrest, hd, hnd⟩
  · rintro (⟨hd, hnd⟩ | ⟨l1, d, l2, heq, hd, hnd⟩)
    · exact ⟨[], it, rest, rfl, hd, hnd⟩
    · exact ⟨it :: l1, d, l2, by rw [heq]; rfl, hd, hnd⟩

/-- An ordering violation exhibits an argument with neither default nor
factory. -/
theorem orderingViolation_some_nondefault {items : List ArgSchemaItem}
    (h : OrderingViolation items) : ∃ nd ∈ items, nd.hasDefault = false := by
  rcases h with ⟨l1, d, l2, heq, _, nd, hmem, hnd⟩
  exact ⟨nd, heq ▸ List.mem_append_right l1 (List.mem_cons_of_mem d hmem), hnd⟩

/-- Under the no-both hypothesis, the build loop never raises the
together-error. -/
theorem buildArgsLoop_no_together (pbn : Bool) (items : List ArgSchemaItem)
    (hnb : ∀ it ∈ items, ¬(it.default.isSome = true ∧ it.default_factory.isSome = true)) :
    ∀ (k : ℕ) (had : Bool) (acc : List Argument) (pc : ℕ),
      buildArgsLoop pbn items k had acc pc ≠ .error .defaultAndFactoryTogether := by
  induction items with
  | nil => intro k had acc pc h; exact absurd h (by simp [buildArgsLoop])
  | cons it rest ih =>
    have hnbh := hnb it (List.mem_cons_self it rest)
    have hnbr : ∀ a ∈ rest, ¬(a.default.isSome = true ∧ a.default_factory.isSome = true) :=
      fun a ha => hnb a (List.mem_cons_of_mem it ha)
    intro k had acc pc h
    cases hd1 : it.default <;> cases hd2 : it.default_factory <;>
      cases had <;>
      simp only [buildArgsLoop, hd1, hd2, Option.isSome_some, Option.isSome_none,
        Option.isNone_some, Option.isNone_none, Bool.and_false, Bool.false_and,
        Bool.and_true, Bool.true_and, Bool.true_or, Bool.false_or,
        Bool.and_self, Bool.or_false, Bool.false_eq_true, if_false, if_true,
        ite_false, ite_true, ArgSchemaItem.hasDefault] at h
    case none.none.false => exact ih hnbr _ _ _ _ h
    case none.none.true => exact absurd h (by simp)
    case none.some.false => exact ih hnbr _ _ _ _ h
    case none.some.true => exact ih hnbr _ _ _ _ h
    case some.none.false => exact ih hnbr _ _ _ _ h
    case some.none.true => exact ih hnbr _ _ _ _ h
    case some.some.false => exact hnbh (by simp [hd1, hd2])
    case some.some.true => exact hnbh (by simp [hd1, hd2])

/-- With `had_default_arg` already set and no argument carrying both
options, the loop fails with the ordering error exactly when some
remaining argument lacks both a default and a factory. -/
theorem buildArgsLoop_had (pbn : Bool) (items : List ArgSchemaItem)
    (hnb : ∀ it ∈ items, ¬(it.default.isSome = true ∧ it.default_factory.isSome = true)) :
    ∀ (k : ℕ) (acc : List Argument) (pc : ℕ),
      (buildArgsLoop pbn items k true acc pc = .error .nonDefaultAfterDefault ↔
        ∃ nd ∈ items, nd.hasDefault = false) := by
  induction items with
  | nil =>
    intro k acc pc
    constructor
    · intro h; exact absurd h (by simp [buildArgsLoop])
    · rintro ⟨nd, hmem, _⟩; cases hmem
  | cons it rest ih =>
    intro k acc pc
    have hnbh := hnb it (List.mem_cons_self it rest)
    have hnbr : ∀ a ∈ rest, ¬(a.default.isSome = true ∧ a.default_factory.isSome = true) :=
      fun a ha => hnb a (List.mem_cons_of_mem it ha)
    have hw : ∀ hmem0 : it.hasDefault = true,
        ((∃ nd ∈ rest, nd.hasDefault = false) ↔
          ∃ nd ∈ it :: rest, nd.hasDefault = false) := by
      intro hmem0
      constructor
      · rintro ⟨nd, hmem, hnd⟩
        exact ⟨nd, List.mem_cons_of_mem it hmem, hnd⟩
      · rintro ⟨nd, hmem, hnd⟩
        rcases List.mem_cons.mp hmem with rfl | hmem2
        · rw [hmem0] at hnd; exact absurd hnd (by simp)
        · exact ⟨nd, hmem2, hnd⟩
    cases hd1 : it.default <;> cases hd2 : it.default_factory
    · -- neither default nor factory: immediate ordering error, head is a witness
      simp only [buildArgsLoop, hd1, hd2, Option.isSome_none, Option.isNone_none,
        Bool.and_self, Bool.false_and, Bool.false_eq_true, if_false, ite_false,
        Bool.true_and, if_true, ite_true]
      constructor
      · intro _
        exact ⟨it, List.mem_cons_self it rest, by
          simp [ArgSchemaItem.hasDefault, hd1, hd2]⟩
      · intro _; trivial
    · -- factory only: recurse with had still set
      simp only [buildArgsLoop, hd1, hd2, Option.isSome_none, Option.isSome_some,
        Option.isNone_none, Option.isNone_some, Bool.and_false, Bool.false_and,
        Bool.and_true, Bool.true_and, Bool.false_eq_true, if_false, ite_false,
        ArgSchemaItem.hasDefault, Bool.false_or, Bool.true_or, Bool.or_true]
      rw [ih hnbr]
      exact hw (by simp [ArgSchemaItem.hasDefault, hd1, hd2])
    · -- default only: recurse with had still set
      simp only [buildArgsLoop, hd1, hd2, Option.isSome_none, Option.isSome_some,
        Option.isNone_none, Option.isNone_some, Bool.and_false, Bool.false_and,
        Bool.and_true, Bool.true_and, Bool.false_eq_true, if_false, ite_false,
        ArgSchemaItem.hasDefault, Bool.false_or, Bool.true_or, Bool.or_true]
      rw [ih hnbr]
      exact hw (by simp [ArgSchemaItem.hasDefault, hd1, hd2])
    · exact (hnbh (by simp [hd1, hd2])).elim

/-- With `had_default_arg` still clear and no argument carrying both
options, the loop fails with the ordering error exactly on an ordering
violation. -/
theorem buildArgsLoop_ordering (pbn : Bool) (items : List ArgSchemaItem)
    (hnb : ∀ it ∈ items, ¬(it.default.isSome = true ∧ it.default_factory.isSome = true)) :
    ∀ (k : ℕ) (acc : List Argument) (pc : ℕ),
      (buildArgsLoop pbn items k false acc pc = .error .nonDefaultAfterDefault ↔
        OrderingViolation items) := by
  induction items with
  | nil =>
    intro k acc pc
    constructor
    · intro h; exact absurd h (by simp [buildArgsLoop])
    · intro h; exact absurd h orderingViolation_nil
  | cons it rest ih =>
    intro k acc pc
    have hnbh := hnb it (List.mem_cons_self it rest)
    have hnbr : ∀ a ∈ rest, ¬(a.default.isSome = true ∧ a.default_factory.isSome = true) :=
      fun a ha => hnb a (List.mem_cons_of_mem it ha)
    rw [orderingViolation_cons]
    cases hd1 : it.default <;> cases hd2 : it.default_factory
    · -- head lacks both: no error here, recurse with had still clear
      have hhd : it.hasDefault = false := by simp [ArgSchemaItem.hasDefault, hd1, hd2]
      simp only [buildArgsLoop, hd1, hd2, Option.isSome_none, Option.isNone_none,
        Bool.and_self, Bool.false_and, Bool.false_eq_true, if_false, ite_false,
        Bool.false_or, ArgSchemaItem.hasDefault]
      rw [ih hnbr]
      constructor
      · exact .inr
      · rintro (⟨hcontra, _⟩ | hov)
        · exact hcontra.elim
        · exact hov
    · -- factory only: head has a default option, recurse with had set
      have hhd : it.hasDefault = true := by simp [ArgSchemaItem.hasDefault, hd1, hd2]
      simp only [buildArgsLoop, hd1, hd2, Option.isSome_none, Option.isSome_some,
        Option.isNone_none, Option.isNone_some, Bool.and_false, Bool.false_and,
        Bool.and_true, Bool.true_and, Bool.false_eq_true, if_false, ite_false,
        Bool.false_or, ArgSchemaItem.hasDefault, Bool.true_or, Bool.or_true]
      rw [buildArgsLoop_had pbn rest hnbr]
      constructor
      · intro h1; exact .inl ⟨trivial, h1⟩
      · rintro (⟨_, h1⟩ | hov)
        · exact h1
        · exact orderingViolation_some_nondefault hov
    · -- default only: symmetric to factory only
      have hhd : it.hasDefault = true := by simp [ArgSchemaItem.hasDefault, hd1, hd2]
      simp only [buildArgsLoop, hd1, hd2, Option.isSome_none, Option.isSome_some,
        Option.isNone_none, Option.isNone_some, Bool.and_false, Bool.false_and,
        Bool.and_true, Bool.true_and, Bool.false_eq_true, if_false, ite_false,
        Bool.false_or, ArgSchemaItem.hasDefault, Bool.true_or, Bool.or_true]
      rw [buildArgsLoop_had pbn rest hnbr]
      constructor
      · intro h1; exact .inl ⟨trivial, h1⟩
      · rintro (⟨_, h1⟩ | hov)
        · exact h1
        · exact orderingViolation_some_nondefault hov
    · exact (hnbh (by simp [hd1, hd2])).elim

/-- C7 (corrected): under the per-argument mutual-exclusion precondition,
`buildArgs` fails with the "Non-default argument follows default argument"
schema error exactly when, after some argument with a default or
default-factory, a later argument — of any mode, keyword-only included —
lacks both; and a schema without such a violation is not rejected. -/
theorem build_default_ordering_check (pbn : Bool) (items : List ArgSchemaItem)
    (va vk : Option ChildValidator)
    (hnb : ∀ it ∈ items, ¬(it.default.isSome = true ∧ it.default_factory.isSome = true)) :
    (buildArgs pbn items va vk = .error .nonDefaultAfterDefault ↔ OrderingViolation items)
    ∧ (¬ OrderingViolation items → ∃ av, buildArgs pbn items va vk = .ok av) := by
  constructor
  · rw [← buildArgsLoop_ordering pbn items hnb 0 [] 0]
    unfold buildArgs
    cases h : buildArgsLoop pbn items 0 false [] 0 with
    | error e => simp
    | ok x => rcases x with ⟨a, b⟩; simp
  · intro hov
    cases h : buildArgsLoop pbn items 0 false [] 0 with
    | ok x =>
      rcases x with ⟨a, b⟩
      exact ⟨⟨a, b, va, vk⟩, by unfold buildArgs; rw [h]⟩
    | error e =>
      cases e with
      | defaultAndFactoryTogether =>
        exact absurd h (buildArgsLoop_no_together pbn items hnb 0 false [] 0)
      | nonDefaultAfterDefault =>
        exact absurd ((buildArgsLoop_ordering pbn items hnb 0 [] 0).mp h) hov

/-- Witness for the corrected ordering claim: a positional-only argument
with a default followed by a positional-only argument without one is
rejected, and the same schema with both defaults present builds. -/
theorem build_default_ordering_check_witness :
    buildArgs false [cexItemA, ⟨"b", "positional_only", none, none, none, okValidator⟩]
        none none = .error .nonDefaultAfterDefault
    ∧ ∃ av, buildArgs false [cexItemA] none none = .ok av := by
  constructor
  · exact (build_default_ordering_check false
      [cexItemA, ⟨"b", "positional_only", none, none, none, okValidator⟩] none none
      (by intro it hit; fin_cases hit <;> simp [cexItemA])).1.mpr
      ⟨[], cexItemA, [⟨"b", "positional_only", none, none, none, okValidator⟩], rfl,
        by simp [cexItemA, ArgSchemaItem.hasDefault],
        ⟨"b", "positional_only", none, none, none, okValidator⟩,
        List.mem_singleton.mpr rfl, by simp [ArgSchemaItem.hasDefault]⟩
  · exact (build_default_ordering_check false [cexItemA] none none
      (by intro it hit; fin_cases hit; simp [cexItemA])).2
      (fun h => by
        rcases orderingViolation_some_nondefault h with ⟨nd, hmem, hnd⟩
        rcases List.mem_singleton.mp hmem with rfl
        simp [cexItemA, ArgSchemaItem.hasDefault] at hnd)

/-- Counterexample to C7 as stated: the build-time ordering check is not
limited to later positional-or-keyword / positional-only arguments — a
keyword-only argument without a default following a defaulted argument
(legal in Python: `def f(a=1, *, b)`) is also rejected. -/
theorem build_rejects_keyword_only_after_default :
    buildArgs false [cexItemA, cexItemB] none none = .error .nonDefaultAfterDefault
    ∧ cexItemB.mode = "keyword_only"
    ∧ cexItemB.mode ≠ "positional_only"
    ∧ cexItemB.mode ≠ "positional_or_keyword" := by
  exact ⟨rfl, rfl, by simp [cexItemB], by simp [cexItemB]⟩

/-- C10: an arguments schema in which some argument carries both a default
and a default factory is rejected by `buildArgs` with a schema error (no
validator is produced). -/
theorem build_rejects_default_with_factory (pbn : Bool) (items : List ArgSchemaItem)
    (va vk : Option ChildValidator)
    (h : ∃ it ∈ items, it.default.isSome = true ∧ it.default_factory.isSome = true) :
    ∃ e, buildArgs pbn items va vk = .error e := by
  have hloop : ∀ (its : List ArgSchemaItem) (k : ℕ) (had : Bool)
      (acc : List Argument) (pc : ℕ),
      (∃ it ∈ its, it.default.isSome = true ∧ it.default_factory.isSome = true) →
      ∃ e, buildArgsLoop pbn its k had acc pc = .error e := by
    intro its
    induction its with
    | nil =>
      intro k had acc pc hx
      rcases hx with ⟨it, hmem, _⟩
      cases hmem
    | cons it rest ih =>
      intro k had acc pc hx
      by_cases hb : (it.default.isSome && it.default_factory.isSome) = true
      · refine ⟨.defaultAndFactoryTogether, ?_⟩
        simp only [buildArgsLoop]
        rw [if_pos hb]
      · have hw2 : ∃ w ∈ rest, w.default.isSome = true ∧ w.default_factory.isSome = true := by
          rcases hx with ⟨w, hw, hboth⟩
          rcases List.mem_cons.mp hw with rfl | hmem
          · exact absurd (by rw [Bool.and_eq_true]; exact ⟨hboth.1, hboth.2⟩) hb
          · exact ⟨w, hmem, hboth⟩
        by_cases hc2 : (had && (it.default.isNone && it.default_factory.isNone)) = true
        · refine ⟨.nonDefaultAfterDefault, ?_⟩
          simp only [buildArgsLoop]
          rw [if_neg hb, if_pos hc2]
        · simp only [buildArgsLoop]
          rw [if_neg hb, if_neg hc2]
          exact ih _ _ _ _ hw2
  rcases hloop items 0 false [] 0 h with ⟨e, he⟩
  exact ⟨e, by unfold buildArgs; rw [he]⟩

/-- Witness: a single argument carrying both a default and a default
factory is rejected at build time. -/
theorem build_rejects_default_with_factory_witness :
    ∃ e, buildArgs false [⟨"a", "positional_only", none, some (.pyInt 1),
        some (fun _ => .pyInt 2), okValidator⟩] none none = .error e := by
  exact build_rejects_default_with_factory false _ none none
    ⟨⟨"a", "positional_only", none, some (.pyInt 1), some (fun _ => .pyInt 2), okValidator⟩,
      List.mem_singleton.mpr rfl, rfl, rfl⟩

/-- C9: building a typed-dict fields serializer with an `extras_schema`
present is a compile-time schema error unless the extra behavior is
`allow`; under `allow` the `extras_schema` is compiled into the resulting
extras serializer; and with no `extras_schema` the result carries no
extras serializer. -/
theorem typed_dict_extras_schema_requires_allow (total : Option Bool)
    (eb : ExtraBehavior) (fd : List (String × FieldInfo)) (es : Option SerSchema)
    (cf : List String) :
    (∀ s : SerSchema, es = some s → eb ≠ .allow →
      typedDictBuild total eb fd es cf =
        .error "extras_schema can only be used if extra_behavior=allow")
    ∧ (∀ (s : SerSchema) (c : CombinedSerializer) (g : GeneralFieldsSerializer),
      es = some s → eb = .allow → CombinedSerializer.build s = .ok c →
      typedDictBuild total eb fd es cf = .ok g → g.extra_serializer = some c)
    ∧ (∀ g : GeneralFieldsSerializer, es = none →
      typedDictBuild total eb fd es cf = .ok g → g.extra_serializer = none) := by
  refine ⟨?_, ?_, ?_⟩
  · rintro s rfl hne
    have he : buildExtraSerializer (some s) (fieldsModeFor eb) =
        .error "extras_schema can only be used if extra_behavior=allow" := by
      cases eb with
      | allow => exact absurd rfl hne
      | forbid => rfl
      | ignore => rfl
    unfold typedDictBuild
    rw [he]
  · rintro s c g rfl rfl hc hg
    have he : buildExtraSerializer (some s) (fieldsModeFor .allow) = .ok (some c) := by
      show (match CombinedSerializer.build s with
        | Except.ok s1 => Except.ok (some s1)
        | Except.error e => Except.error e) = Except.ok (some c)
      rw [hc]
    cases hf : buildSerFields (total.getD true) fd [] with
    | error e =>
      have h2 : typedDictBuild total .allow fd (some s) cf = .error e := by
        unfold typedDictBuild
        rw [he, hf]
      rw [h2] at hg
      exact absurd hg (by simp)
    | ok fields =>
      have h2 : typedDictBuild total .allow fd (some s) cf =
          .ok ⟨fields, fieldsModeFor .allow, some c, cf⟩ := by
        unfold typedDictBuild
        rw [he, hf]
      rw [h2] at hg
      cases Except.ok.inj hg
      rfl
  · rintro g rfl hg
    have he : buildExtraSerializer none (fieldsModeFor eb) = .ok none := rfl
    cases hf : buildSerFields (total.getD true) fd [] with
    | error e =>
      have h2 : typedDictBuild total eb fd none cf = .error e := by
        unfold typedDictBuild
        rw [he, hf]
      rw [h2] at hg
      exact absurd hg (by simp)
    | ok fields =>
      have h2 : typedDictBuild total eb fd none cf =
          .ok ⟨fields, fieldsModeFor eb, none, cf⟩ := by
        unfold typedDictBuild
        rw [he, hf]
      rw [h2] at hg
      cases Except.ok.inj hg
      rfl

/-- Witness for the typed-dict extras claim at a concrete schema: under
`forbid` with an extras schema the build fails; under `allow` the extras
schema is compiled in; with none, none is built. -/
theorem typed_dict_extras_schema_requires_allow_witness :
    typedDictBuild none .forbid [("f", ⟨none, none, none, .valid 1⟩)] (some (.valid 2)) [] =
      .error "extras_schema can only be used if extra_behavior=allow"
    ∧ (⟨[("f", ⟨"f", none, some (.node 1), true⟩)], .typedDictAllow, some (.node 2),
        []⟩ : GeneralFieldsSerializer).extra_serializer = some (.node 2)
    ∧ (⟨[("f", ⟨"f", none, some (.node 1), true⟩)], .simpleDict, none,
        []⟩ : GeneralFieldsSerializer).extra_serializer = none := by
  refine ⟨?_, ?_, ?_⟩
  · exact (typed_dict_extras_schema_requires_allow none .forbid
      [("f", ⟨none, none, none, .valid 1⟩)] (some (.valid 2)) []).1 (.valid 2) rfl
      (by intro h; cases h)
  · exact (typed_dict_extras_schema_requires_allow none .allow
      [("f", ⟨none, none, none, .valid 1⟩)] (some (.valid 2)) []).2.1 (.valid 2) (.node 2)
      ⟨[("f", ⟨"f", none, some (.node 1), true⟩)], .typedDictAllow, some (.node 2), []⟩
      rfl rfl rfl rfl
  · exact (typed_dict_extras_schema_requires_allow none .ignore
      [("f", ⟨none, none, none, .valid 1⟩)] none []).2.2
      ⟨[("f", ⟨"f", none, some (.node 1), true⟩)], .simpleDict, none, []⟩ rfl rfl

end PydanticCore
